import Mathlib

/-!
# Verification of the news2kindle aggregation pipeline

Shallow embedding of `src/news2kindle.py` (the single source file of the
repository) together with proofs and refutations of the specification
claims about it.

Conventions of the embedding:

* Instants are modelled as `Int` epoch seconds.  A Python "naive datetime"
  is represented by the epoch second that its wall-clock fields denote when
  read as UTC.  The local-time offset of the machine from UTC is an explicit
  parameter `o` (seconds); `time.mktime` and `datetime.fromtimestamp`
  convert between wall-clock fields and epoch seconds using `o`.  The
  model assumes the offset is the same at write and read time (no DST
  transition in between), which is the abstraction level of the spec.
* The filesystem effects of one delivery cycle (`do_one_round`) are
  represented by an explicit record `FS` of which files exist, plus
  counters for transmission attempts and logged validation errors.
  Python exceptions are `Except`: an exception value carries the
  filesystem state at the moment the exception escapes `do_one_round`.
* Strings are processed at the `List Char` level.  The regex substitutions
  of the sanitiser are embedded as left-to-right scanners with an explicit
  fuel argument (fuel bounded by the list length suffices because every
  step consumes at least one character); this keeps every definition
  computable by the kernel.
-/

namespace News2Kindle

/-! ## Cursor store (`update_start` / `get_start`, source lines 149-162)

`update_start(now)` runs `os.utime(FEED_FILE, (time.mktime(now.timetuple()),) * 2)`:
the tz-aware UTC datetime `now` is flattened to its wall-clock fields
(`timetuple`), which `mktime` interprets as local time, yielding the stored
mtime.  `get_start(fname)` either returns `utcnow - 24h` (file absent) or
`datetime.fromtimestamp(mtime) - 24h` re-labelled as UTC, where
`fromtimestamp` converts the epoch mtime back to local wall-clock fields. -/

/-- Python `time.mktime`: wall-clock fields (read as an epoch number via the UTC
reading) interpreted as local time with offset `o` seconds. -/
def mktime (o wall : Int) : Int := wall - o

/-- Python `datetime.fromtimestamp`: epoch second to local wall-clock fields. -/
def fromtimestamp (o t : Int) : Int := t + o

/-- Applying `pytz.utc.localize` to a naive datetime: the wall-clock fields are
re-read as UTC, i.e. the identity in this encoding. -/
def utcLocalize (wall : Int) : Int := wall

/-- Seconds in `timedelta(hours=24)`. -/
def DAY : Int := 86400

/-- Source `update_start(now)` (lines 149-153): returns the mtime stored on
the state file.  `now` is a tz-aware UTC instant. -/
def update_start (o now : Int) : Int := mktime o now

/-- Source `get_start(fname)` (lines 156-162): `mtime?` is the mtime of the
state file, or `none` when the file does not exist; `now` is the instant
`datetime.utcnow()` observes at call time. -/
def get_start (o : Int) (mtime? : Option Int) (now : Int) : Int :=
  match mtime? with
  | none => utcLocalize (now - DAY)
  | some m => utcLocalize (fromtimestamp o m - DAY)

/-! ## One delivery cycle (`do_one_round`, source lines 459-518)

The cycle builds the document, packages it (`build_epub_kindlesafe`,
lines 379-424), validates the artifact size, optionally transmits it, then
deletes the artifact files and finally calls `update_start`.  Nothing in
`do_one_round` is wrapped in try/finally, so any exception escaping the
converter or `send_mail` aborts the rest of the function. -/

/-- Filesystem and observable-effect state of one cycle. -/
structure FS where
  /-- the temporary `.html` file written for `ebook-convert` exists -/
  tmpHtml : Bool
  /-- the output EPUB artifact exists -/
  epub : Bool
  /-- mtime recorded by the last `update_start`, if any -/
  cursor : Option Int
  /-- number of transmission attempts (`send_mail` calls) so far -/
  sends : Nat
  /-- number of artifact-validation errors logged so far -/
  errorsLogged : Nat
deriving Repr, DecidableEq

/-- Clean initial state: no files, no cursor, nothing attempted. -/
def FS.init : FS := ⟨false, false, none, 0, 0⟩

/-- Outcomes of the external collaborators during one cycle. -/
structure Env where
  /-- whether `which("ebook-convert")` finds calibre -/
  calibre : Bool
  /-- the converter invocation completes without raising -/
  convertOk : Bool
  /-- the `st_size` of the produced artifact -/
  epubSize : Nat
  /-- whether `send_mail` completes without raising -/
  sendOk : Bool
  /-- the feed worker threads all succeed (failures are absorbed inside
  the workers and only shrink the post list) -/
  fetchOk : Bool
deriving Repr, DecidableEq

/-- Source `build_epub_kindlesafe` (lines 379-424).  Calibre path: write a
temp HTML file, run `ebook-convert` under `try/finally` where the
`finally` removes the temp file on both exit paths; a converter error
(`subprocess.run(check=True)`) propagates.  Pandoc path: `pypandoc.convert_text`
writes the artifact directly, no temp file; an error propagates.
`Except.error s` is an escaping Python exception with filesystem state `s`. -/
def build_epub_kindlesafe (env : Env) (fs : FS) : Except FS FS :=
  if env.calibre then
    let fs1 : FS := { fs with tmpHtml := true }
    if env.convertOk then
      Except.ok { fs1 with epub := true, tmpHtml := false }
    else
      Except.error { fs1 with tmpHtml := false }
  else
    if env.convertOk then
      Except.ok { fs with epub := true }
    else
      Except.error fs

/-- The decision taken by the artifact-size gate (source lines 494-508). -/
inductive GateDecision where
  | emptyAbort
  | oversizedAbort
  | send
deriving Repr, DecidableEq

/-- Embeds `if not size: ... elif size > 50 * 1024 * 1024: ... else: send`. -/
def gate_decision (size : Nat) : GateDecision :=
  if size = 0 then GateDecision.emptyAbort
  else if 50 * 1024 * 1024 < size then GateDecision.oversizedAbort
  else GateDecision.send

/-- Cleanup and cursor update (source lines 510-518): unlink the artifact
files (`missing_ok=True`, errors swallowed), then `update_start(now)`.
`now` is the instant captured at the top of `do_one_round`. -/
def finishCycle (now : Int) (o : Int) (fs : FS) : FS :=
  { fs with epub := false, cursor := some (update_start o now) }

/-- Source `do_one_round` (lines 459-518).  Feed fetching absorbs worker
failures (posts list merely shrinks), the summary collaborators have
internal fallbacks, so the first step that can raise is the converter;
the next is `send_mail`.  There is no try/finally: an exception from
either skips the cleanup block and `update_start`. -/
def do_one_round (env : Env) (now o : Int) (fs : FS) : Except FS FS :=
  match build_epub_kindlesafe env fs with
  | Except.error fs1 => Except.error fs1
  | Except.ok fs1 =>
    match gate_decision env.epubSize with
    | GateDecision.emptyAbort =>
        Except.ok (finishCycle now o { fs1 with errorsLogged := fs1.errorsLogged + 1 })
    | GateDecision.oversizedAbort =>
        Except.ok (finishCycle now o { fs1 with errorsLogged := fs1.errorsLogged + 1 })
    | GateDecision.send =>
        let fs2 : FS := { fs1 with sends := fs1.sends + 1 }
        if env.sendOk then
          Except.ok (finishCycle now o fs2)
        else
          Except.error fs2

/-- The filesystem state at the end of the cycle, whether it returned
normally or an exception escaped. -/
def stateOf : Except FS FS → FS
  | Except.ok s => s
  | Except.error s => s

/-- Did the cycle return normally (no Python exception escaped)? -/
def cycleOk : Except FS FS → Bool
  | Except.ok _ => true
  | Except.error _ => false

/-! ## Fragment sanitiser (source lines 92-95 and 185-190)

`sanitise_fragment` performs, in order: `replace("&thinsp;", " ")`,
`BAD_TAGS_RE.sub("", ·)` and `IMG_TAG_RE.sub("", ·)` where

* `BAD_TAGS_RE  = </?(script|style|iframe|svg|object|embed|noscript|video|audio)[^>]*>`
  with `re.IGNORECASE`,
* `IMG_TAG_RE = <img\b[^>]*>` with `re.IGNORECASE`.

`re.sub` scans left to right, replacing each leftmost non-overlapping
match and resuming after it; both patterns require a literal `<` at the
start, and `[^>]*` is greedy followed by a mandatory `>`, so a successful
match always runs from its `<` to the first subsequent `>`.  The embedding
below implements exactly that scan.  Case folding is modelled on ASCII
(the pattern letters are all ASCII). -/

/-- ASCII lower-casing, the case folding relevant to `re.IGNORECASE` on
the ASCII letters used in the patterns. -/
def lowerAscii (c : Char) : Char :=
  if 'A' ≤ c ∧ c ≤ 'Z' then Char.ofNat (c.toNat + 32) else c

/-- Case-insensitive literal match: does `cs` start with pattern `pat`
(given in lower case)?  Returns the remaining suffix on success. -/
def ciStarts : List Char → List Char → Option (List Char)
  | [], cs => some cs
  | _ :: _, [] => none
  | p :: ps, c :: cs => if lowerAscii c = p then ciStarts ps cs else none

/-- Literal (case-sensitive) match returning the suffix on success. -/
def litStarts : List Char → List Char → Option (List Char)
  | [], cs => some cs
  | _ :: _, [] => none
  | p :: ps, c :: cs => if c = p then litStarts ps cs else none

/-- The denylisted element names of `BAD_TAGS_RE` (source line 93), in
pattern order. -/
def badTagNames : List String :=
  ["script", "style", "iframe", "svg", "object", "embed", "noscript", "video", "audio"]

/-- The alternation `(script|style|iframe|svg|object|embed|noscript|video|audio)`
of `BAD_TAGS_RE`, as character lists.  No alternative is a prefix of
another, so at most one can match at a given position. -/
def badTagPats : List (List Char) :=
  badTagNames.map (fun t => t.data)

/-- Try each alternative in order (regex alternation). -/
def anyCiStarts : List (List Char) → List Char → Option (List Char)
  | [], _ => none
  | p :: ps, cs =>
    match ciStarts p cs with
    | some r => some r
    | none => anyCiStarts ps cs

/-- Regex `[^>]*>`: greedy scan to the first `>`, consuming it; fails when no
`>` remains (then the whole regex match fails). -/
def skipToGt : List Char → Option (List Char)
  | [] => none
  | c :: cs => if c = '>' then some cs else skipToGt cs

/-- One attempted match of `BAD_TAGS_RE` at the head of `cs`; on success
returns the suffix after the match.  The optional `/` is committed when
present: no alternative of the tag alternation begins with `/`, so regex
backtracking over `/?` cannot produce a match this function misses. -/
def matchBad (cs : List Char) : Option (List Char) :=
  match cs with
  | [] => none
  | c :: rest =>
    if c = '<' then
      let rest1 := if rest.head? = some '/' then rest.tail else rest
      match anyCiStarts badTagPats rest1 with
      | some r => skipToGt r
      | none => none
    else none

/-- The Python `\w` class on ASCII input: letters, digits, underscore. -/
def isWordChar (c : Char) : Bool :=
  ('a' ≤ c ∧ c ≤ 'z') ∨ ('A' ≤ c ∧ c ≤ 'Z') ∨ ('0' ≤ c ∧ c ≤ '9') ∨ c = '_'

/-- One attempted match of `IMG_TAG_RE` = `<img\b[^>]*>` at the head of
`cs`.  The word boundary after `img` requires the next character to be a
non-word character; at end of input the boundary holds but `[^>]*>` then
fails, which `skipToGt [] = none` also yields. -/
def matchImg (cs : List Char) : Option (List Char) :=
  match cs with
  | [] => none
  | c :: rest =>
    if c = '<' then
      match ciStarts "img".data rest with
      | some r =>
        match r.head? with
        | some d => if isWordChar d then none else skipToGt r
        | none => none
      | none => none
    else none

/-- Embeds `BAD_TAGS_RE.sub("", ·)`: left-to-right scan deleting each match.
Fuel-recursive: every step consumes at least one character, so fuel equal
to the length of the list completes the scan; exhausted fuel returns the
rest unchanged. -/
def subBadF : Nat → List Char → List Char
  | 0, cs => cs
  | _ + 1, [] => []
  | f + 1, c :: cs =>
    match matchBad (c :: cs) with
    | some r => subBadF f r
    | none => c :: subBadF f cs

/-- Embeds `IMG_TAG_RE.sub("", ·)`: same scan with the image pattern. -/
def subImgF : Nat → List Char → List Char
  | 0, cs => cs
  | _ + 1, [] => []
  | f + 1, c :: cs =>
    match matchImg (c :: cs) with
    | some r => subImgF f r
    | none => c :: subImgF f cs

/-- The literal pattern of `html_text.replace("&thinsp;", " ")`. -/
def thinspPat : List Char := "&thinsp;".data

/-- Embeds `str.replace("&thinsp;", " ")`: left-to-right scan replacing each
leftmost non-overlapping occurrence by one space. -/
def replaceThinspF : Nat → List Char → List Char
  | 0, cs => cs
  | _ + 1, [] => []
  | f + 1, c :: cs =>
    match litStarts thinspPat (c :: cs) with
    | some r => ' ' :: replaceThinspF f r
    | none => c :: replaceThinspF f cs

/-- Source `sanitise_fragment` (lines 185-190) on character lists. -/
def sanitiseChars (cs : List Char) : List Char :=
  let a := replaceThinspF cs.length cs
  let b := subBadF a.length a
  subImgF b.length b

/-- Source `sanitise_fragment` (lines 185-190). -/
def sanitise_fragment (s : String) : String := String.mk (sanitiseChars s.data)

/-! ## Feed list loading (`load_feeds`, source lines 142-146) -/

/-- The whitespace characters that Python `str.strip()` removes (ASCII; the
feed file is expected ASCII/UTF-8 URLs and comments). -/
def pySpace (c : Char) : Bool :=
  c = ' ' ∨ c = '\t' ∨ c = '\n' ∨ c = '\r' ∨ c = '\x0b' ∨ c = '\x0c'

/-- Python `str.strip()` on a character list. -/
def stripChars (l : List Char) : List Char :=
  ((l.dropWhile pySpace).reverse.dropWhile pySpace).reverse

/-- Python `ln.strip()`. -/
def pyStrip (s : String) : String := String.mk (stripChars s.data)

/-- Python `ln.startswith("#")`: tested on the raw, unstripped line. -/
def startsHash (l : List Char) : Bool :=
  match l with
  | [] => false
  | c :: _ => c = '#'

/-- Source `load_feeds` (lines 142-146): `file?` is the list of lines of
`feeds.txt` as produced by iterating the open file (newline terminators
included), or `none` when the file does not exist.  The comprehension
`[ln.strip() for ln in f if ln.strip() and not ln.startswith("#")]` keeps,
in file order, the stripped form of every line whose stripped form is a
non-empty (truthy) string and which does not itself begin with `#`. -/
def load_feeds (file? : Option (List String)) : List String :=
  match file? with
  | none => []
  | some lns =>
    (lns.filter (fun ln => !(pyStrip ln).data.isEmpty && !startsHash ln.data)).map pyStrip

/-! ## Posts and their ordering

`FeedparserThread.py` is imported by the source but is not under `src/`.
Modelled from the spec: an item ("Post") carries optional title, author,
source-name and body fragment, a required link and a required publication
instant, and "ordering key is publication instant".  `posts.sort()`
(source line 466) is the stable in-place Python sort under that key; a
stable sort by a fixed key is a unique function of its input, embedded
here as the classic stable insertion sort (insert from the right; on a
tie the element already placed — which arrived earlier — stays first). -/

/-- One feed item. -/
structure Post where
  time : Int
  title : Option String
  author : Option String
  blog : Option String
  link : String
  body : Option String
deriving Repr, DecidableEq

/-- Insert `p` before the first element whose key is not below the key of
`p`; for
equal keys the element already in the list stays first. -/
def insertPost (p : Post) : List Post → List Post
  | [] => [p]
  | q :: qs => if p.time ≤ q.time then p :: q :: qs else q :: insertPost p qs

/-- Embeds `posts.sort()` as a stable ascending sort on the publication instant. -/
def sortPosts : List Post → List Post
  | [] => []
  | p :: ps => insertPost p (sortPosts ps)

/-! ## Per-post rendering (`nicepost`, source lines 193-202, and the
articles block of `do_one_round`, source lines 474-476) -/

/-- Python `d.get(k) or default` for an optional string field: `None` and
the empty string are both falsy and replaced by the default. -/
def orDefault (x : Option String) (d : String) : String :=
  match x with
  | none => d
  | some s => if s = "" then d else s

/-- The fields `nicepost` supplies to `HTML_PER_POST` (source lines
84-90); `idx` becomes the anchor `id="post-{idx}"` of the rendered
`<article>` block. -/
structure RenderedPost where
  idx : Nat
  title : String
  author : String
  blog : String
  link : String
  body : String
  time : Int
deriving Repr, DecidableEq

/-- Source `nicepost(post, idx)` (lines 193-202).  Here `nicedate`/`nicetime`
are deterministic presentations of `time`; the instant itself is kept. -/
def nicepost (p : Post) (idx : Nat) : RenderedPost :=
  { idx := idx
    title := orDefault p.title "Untitled"
    author := orDefault p.author "Unknown"
    blog := orDefault p.blog "Source"
    link := p.link
    body := sanitise_fragment (orDefault p.body "")
    time := p.time }

/-- Python `enumerate(posts, start=i)`. -/
def enumerateFrom : Nat → List Post → List (Nat × Post)
  | _, [] => []
  | i, p :: ps => (i, p) :: enumerateFrom (i + 1) ps

/-- The rendered article blocks, in document order:
`[HTML_PER_POST.format(**nicepost(p, i)) for i, p in enumerate(posts, start=1)]`
(source lines 475-476), applied to the sorted post list. -/
def articlesBlocks (posts : List Post) : List RenderedPost :=
  (enumerateFrom 1 (sortPosts posts)).map (fun ip => nicepost ip.2 ip.1)

/-! ## Theorems -/

/-- C5: `get_start` called with no prior state file while `datetime.utcnow()`
observes instant `N` returns exactly `N` minus 24 hours; after a prior
cycle recorded instant `M` via `update_start`, it returns exactly `M`
minus 24 hours.  `o` is the local-UTC offset of the machine, assumed unchanged
between the write and the read. -/
theorem c5_cursor_read (o M N : Int) :
    get_start o none N = N - DAY ∧
    get_start o (some (update_start o M)) N = M - DAY := by
  refine ⟨rfl, ?_⟩
  simp only [get_start, update_start, mktime, fromtimestamp, utcLocalize]
  omega

/-- C6: given a packaged artifact, the delivery gate of `do_one_round`
logs an error and attempts no transmission when the artifact is zero
bytes, likewise when it exceeds 50 MB, and attempts transmission exactly
once when its size is nonzero and at most 50 MB. -/
theorem c6_delivery_gate (env : Env) (now o : Int) (h : env.convertOk = true) :
    (env.epubSize = 0 →
        (stateOf (do_one_round env now o FS.init)).sends = 0 ∧
        (stateOf (do_one_round env now o FS.init)).errorsLogged = 1) ∧
    (50 * 1024 * 1024 < env.epubSize →
        (stateOf (do_one_round env now o FS.init)).sends = 0 ∧
        (stateOf (do_one_round env now o FS.init)).errorsLogged = 1) ∧
    (env.epubSize ≠ 0 → env.epubSize ≤ 50 * 1024 * 1024 →
        (stateOf (do_one_round env now o FS.init)).sends = 1 ∧
        (stateOf (do_one_round env now o FS.init)).errorsLogged = 0) := by
  rcases env with ⟨cal, cok, size, sok, fok⟩
  cases h
  cases cal <;> cases sok <;>
    simp only [do_one_round, build_epub_kindlesafe, gate_decision, finishCycle,
      stateOf, FS.init] <;>
    split_ifs <;> simp_all

/-- C6 witness: the three gate behaviours at concrete sizes 0, 51 MB and
1000 bytes. -/
theorem c6_delivery_gate_witness :
    ((stateOf (do_one_round ⟨true, true, 0, true, true⟩ 0 0 FS.init)).sends = 0 ∧
      (stateOf (do_one_round ⟨true, true, 0, true, true⟩ 0 0 FS.init)).errorsLogged = 1) ∧
    ((stateOf (do_one_round ⟨true, true, 51 * 1024 * 1024, true, true⟩ 0 0 FS.init)).sends = 0 ∧
      (stateOf (do_one_round ⟨true, true, 51 * 1024 * 1024, true, true⟩ 0 0 FS.init)).errorsLogged = 1) ∧
    ((stateOf (do_one_round ⟨true, true, 1000, true, true⟩ 0 0 FS.init)).sends = 1 ∧
      (stateOf (do_one_round ⟨true, true, 1000, true, true⟩ 0 0 FS.init)).errorsLogged = 0) :=
  ⟨(c6_delivery_gate ⟨true, true, 0, true, true⟩ 0 0 rfl).1 rfl,
   (c6_delivery_gate ⟨true, true, 51 * 1024 * 1024, true, true⟩ 0 0 rfl).2.1 (by decide),
   (c6_delivery_gate ⟨true, true, 1000, true, true⟩ 0 0 rfl).2.2 (by decide) (by decide)⟩

/-- C3 counterexample: a cycle whose packaging and size validation succeed
but whose transmission raises (`send_mail` propagates an exception) ends
with the EPUB artifact still on disk (`epub := true` in the final state):
the cleanup block of `do_one_round` is not in a `try/finally`, so this
exception exit path deletes neither artifact, refuting deletion "on every
exit path". -/
theorem c3_counterexample :
    do_one_round ⟨true, true, 1000, false, true⟩ 0 0 FS.init =
      Except.error ⟨false, true, none, 1, 0⟩ := by
  rfl

/-- C3 amended: the temporary HTML file is deleted on every exit path
(the converter invocation sits in a `try/finally`), and the EPUB artifact
is deleted on every exit path on which no exception escapes `do_one_round`
(success and both validation-failure paths); an exception escaping
packaging or transmission skips artifact deletion. -/
theorem c3_amended_cleanup (env : Env) (now o : Int) :
    (cycleOk (do_one_round env now o FS.init) = true →
        (stateOf (do_one_round env now o FS.init)).epub = false) ∧
    (stateOf (do_one_round env now o FS.init)).tmpHtml = false := by
  rcases env with ⟨cal, cok, size, sok, fok⟩
  cases cal <;> cases cok <;> cases sok <;>
    simp only [do_one_round, build_epub_kindlesafe, gate_decision, finishCycle,
      stateOf, cycleOk, FS.init] <;>
    split_ifs <;> simp

/-- C3 amended witness: a fully successful cycle ends with neither file
present. -/
theorem c3_amended_cleanup_witness :
    (stateOf (do_one_round ⟨true, true, 1000, true, true⟩ 0 0 FS.init)).epub = false ∧
    (stateOf (do_one_round ⟨true, true, 1000, true, true⟩ 0 0 FS.init)).tmpHtml = false :=
  ⟨(c3_amended_cleanup ⟨true, true, 1000, true, true⟩ 0 0).1 rfl,
   (c3_amended_cleanup ⟨true, true, 1000, true, true⟩ 0 0).2⟩

/-- C4 counterexample: a cycle whose packaging step raises (converter
failure: `subprocess.run(check=True)` propagates) ends with the cursor
not advanced (`cursor = none`, while the claim requires it to record the
cycle start instant): `update_start` is the last line of `do_one_round`
and no `try/finally` protects it. -/
theorem c4_counterexample :
    do_one_round ⟨true, false, 0, true, true⟩ 5 0 FS.init =
      Except.error ⟨false, false, none, 0, 0⟩ ∧
    (stateOf (do_one_round ⟨true, false, 0, true, true⟩ 5 0 FS.init)).cursor = none := by
  exact ⟨rfl, rfl⟩

/-- C4 amended: the cursor is advanced (via `update_start` with the
instant captured at the start of the cycle) on every cycle from which no
exception escapes — in particular fetch failures and artifact-validation
failures still advance it — but a packaging or transmission exception
aborts the cycle before `update_start` runs.  The second conjunct
exhibits a cycle whose every feed worker fails (`fetchOk := false`) still
advancing the cursor. -/
theorem c4_amended_cursor (env : Env) (now o : Int) :
    (cycleOk (do_one_round env now o FS.init) = true →
        (stateOf (do_one_round env now o FS.init)).cursor = some (update_start o now)) ∧
    (stateOf (do_one_round ⟨true, true, 1, true, false⟩ now o FS.init)).cursor
      = some (update_start o now) := by
  constructor
  · rcases env with ⟨cal, cok, size, sok, fok⟩
    cases cal <;> cases cok <;> cases sok <;>
      simp only [do_one_round, build_epub_kindlesafe, gate_decision, finishCycle,
        stateOf, cycleOk, FS.init] <;>
      split_ifs <;> simp
  · rfl

/-- C4 amended witness: a concrete successful cycle records its start
instant. -/
theorem c4_amended_cursor_witness :
    (stateOf (do_one_round ⟨true, true, 1, true, true⟩ 3 0 FS.init)).cursor
      = some (update_start 0 3) :=
  (c4_amended_cursor ⟨true, true, 1, true, true⟩ 3 0).1 rfl

/-- Dropping the whitespace head leaves an all-whitespace list exactly
when the whole list was whitespace. -/
theorem all_pySpace_dropWhile (l : List Char) :
    (∀ c ∈ l.dropWhile pySpace, pySpace c) ↔ ∀ c ∈ l, pySpace c := by
  constructor
  · intro h c hc
    rw [← List.takeWhile_append_dropWhile (p := pySpace) (l := l)] at hc
    rcases List.mem_append.1 hc with h1 | h2
    · exact List.mem_takeWhile_imp h1
    · exact h c h2
  · intro h c hc
    exact h c ((List.dropWhile_sublist pySpace).subset hc)

/-- Python `str.strip()` returns the empty string exactly on whitespace-only
input. -/
theorem stripChars_eq_nil_iff (l : List Char) :
    stripChars l = [] ↔ ∀ c ∈ l, pySpace c := by
  unfold stripChars
  rw [List.reverse_eq_nil_iff, List.dropWhile_eq_nil_iff]
  constructor
  · intro h
    rw [← all_pySpace_dropWhile]
    intro c hc
    exact h c (List.mem_reverse.2 hc)
  · intro h c hc
    exact (all_pySpace_dropWhile l).2 h c (List.mem_reverse.1 hc)

/-- Python `ln.startswith("#")` is the first-character test. -/
theorem startsHash_eq (l : List Char) :
    startsHash l = decide (l.head? = some '#') := by
  cases l with
  | nil => simp [startsHash]
  | cons c cs => simp [startsHash]

/-- C9: `load_feeds` returns the empty list when the feeds file is
absent; otherwise it returns, in file order, each line stripped of
surrounding whitespace, keeping exactly the lines that contain some
non-whitespace character (i.e. skipping empty and whitespace-only lines)
and whose first character is not `#`. -/
theorem c9_load_feeds (lns : List String) :
    load_feeds none = [] ∧
    load_feeds (some lns) =
      (lns.filter fun ln =>
        (ln.data.any fun c => !pySpace c) && !(decide (ln.data.head? = some '#'))).map pyStrip := by
  refine ⟨rfl, ?_⟩
  rw [show load_feeds (some lns) =
      (lns.filter fun ln => !(pyStrip ln).data.isEmpty && !startsHash ln.data).map pyStrip
    from rfl]
  congr 1
  apply List.filter_congr
  intro ln _
  congr 1
  · show (!(pyStrip ln).data.isEmpty) = (ln.data.any fun c => !pySpace c)
    have hdata : (pyStrip ln).data = stripChars ln.data := rfl
    rw [hdata]
    rcases h : ln.data.any fun c => !pySpace c with _ | _
    · have : ∀ c ∈ ln.data, pySpace c := by
        intro c hc
        by_contra hcs
        have : ln.data.any (fun c => !pySpace c) = true :=
          List.any_eq_true.2 ⟨c, hc, by simp [hcs]⟩
        simp [this] at h
      simp [(stripChars_eq_nil_iff ln.data).2 this]
    · rcases List.any_eq_true.1 h with ⟨c, hc, hcs⟩
      have : stripChars ln.data ≠ [] := by
        intro hnil
        have := (stripChars_eq_nil_iff ln.data).1 hnil c hc
        simp [this] at hcs
      simp [List.isEmpty_iff, this]
  · rw [startsHash_eq]

/-- Lemma: `insertPost` inserts its argument somewhere in the list. -/
theorem insertPost_perm (p : Post) (l : List Post) :
    List.Perm (insertPost p l) (p :: l) := by
  induction l with
  | nil => rfl
  | cons q qs ih =>
    rw [insertPost]
    split_ifs
    · rfl
    · exact (ih.cons q).trans (List.Perm.swap p q qs)

/-- Sorting permutes the post list. -/
theorem sortPosts_perm (l : List Post) : List.Perm (sortPosts l) l := by
  induction l with
  | nil => rfl
  | cons p ps ih => exact (insertPost_perm p (sortPosts ps)).trans (ih.cons p)

/-- Membership after insertion. -/
theorem mem_insertPost {b p : Post} {l : List Post} :
    b ∈ insertPost p l ↔ b = p ∨ b ∈ l := by
  rw [(insertPost_perm p l).mem_iff, List.mem_cons]

/-- Inserting into a list sorted by publication instant keeps it sorted. -/
theorem insertPost_pairwise (p : Post) {l : List Post}
    (h : l.Pairwise fun a b => a.time ≤ b.time) :
    (insertPost p l).Pairwise fun a b => a.time ≤ b.time := by
  induction l with
  | nil => simp [insertPost]
  | cons q qs ih =>
    rcases List.pairwise_cons.1 h with ⟨hq, hqs⟩
    rw [insertPost]
    split_ifs with hle
    · refine List.pairwise_cons.2 ⟨?_, h⟩
      intro b hb
      rcases List.mem_cons.1 hb with rfl | hb
      · exact hle
      · exact le_trans hle (hq b hb)
    · refine List.pairwise_cons.2 ⟨?_, ih hqs⟩
      intro b hb
      rcases mem_insertPost.1 hb with rfl | hb
      · omega
      · exact hq b hb

/-- The sorted post list is ascending in the publication instant. -/
theorem sortPosts_pairwise (l : List Post) :
    (sortPosts l).Pairwise fun a b => a.time ≤ b.time := by
  induction l with
  | nil => exact List.Pairwise.nil
  | cons p ps ih => exact insertPost_pairwise p ih

/-- Restricted to any one publication instant, insertion puts the new
element first and changes nothing else. -/
theorem filter_insertPost (p : Post) (l : List Post) (t : Int) :
    (insertPost p l).filter (fun q => q.time = t) =
      if p.time = t then p :: l.filter (fun q => q.time = t)
      else l.filter (fun q => q.time = t) := by
  induction l with
  | nil =>
    by_cases hpt : p.time = t <;> simp [insertPost, List.filter_cons, hpt]
  | cons q qs ih =>
    rw [insertPost]
    split_ifs with hle hpt hpt
    · simp [List.filter_cons, hpt]
    · simp [List.filter_cons, hpt]
    · have hqt : ¬(q.time = t) := by omega
      simp [List.filter_cons, hqt, ih, hpt]
    · simp [List.filter_cons, ih, hpt]

/-- Restricted to any one publication instant, sorting is the identity:
ties keep their original arrival order (stability). -/
theorem sortPosts_filter_time (l : List Post) (t : Int) :
    (sortPosts l).filter (fun q => q.time = t) = l.filter (fun q => q.time = t) := by
  induction l with
  | nil => rfl
  | cons p ps ih =>
    rw [sortPosts, filter_insertPost]
    split_ifs with hpt
    · simp [List.filter_cons, hpt, ih]
    · simp [List.filter_cons, hpt, ih]

/-- C7: the item order of the assembled document (`posts.sort()`) is a
permutation of the collected items, ascending in the publication instant,
and for each fixed publication instant the items appear in their original
arrival order — a stable ascending sort keyed on the publication instant
only. -/
theorem c7_stable_sort_by_time (l : List Post) :
    List.Perm (sortPosts l) l ∧
    ((sortPosts l).Pairwise fun a b => a.time ≤ b.time) ∧
    ∀ t : Int, (sortPosts l).filter (fun q => q.time = t) =
      l.filter (fun q => q.time = t) :=
  ⟨sortPosts_perm l, sortPosts_pairwise l, sortPosts_filter_time l⟩

/-- The first components of `enumerate(l, start=i)` are `i, i+1, ...`. -/
theorem enumerateFrom_map_fst (i : Nat) (l : List Post) :
    (enumerateFrom i l).map Prod.fst = List.range' i l.length := by
  induction l generalizing i with
  | nil => rfl
  | cons p ps ih => simp [enumerateFrom, List.range', ih]

/-- C10: for a non-empty post collection, the run-level anchor
identifiers of the rendered article blocks, in document order, are
exactly the consecutive integers `1` to `n` where `n` is the number of
posts. -/
theorem c10_anchor_ids (posts : List Post) (_h : posts ≠ []) :
    (articlesBlocks posts).map RenderedPost.idx = List.range' 1 posts.length := by
  unfold articlesBlocks
  rw [List.map_map]
  have hcomp : (RenderedPost.idx ∘ fun ip : Nat × Post => nicepost ip.2 ip.1) = Prod.fst := rfl
  rw [hcomp, enumerateFrom_map_fst]
  congr 1
  exact (sortPosts_perm posts).length_eq

/-- C10 witness: two concrete posts receive anchor ids `[1, 2]`. -/
theorem c10_anchor_ids_witness :
    (articlesBlocks
        [⟨9, some "a", none, none, "l1", none⟩, ⟨4, none, none, none, "l2", none⟩]).map
      RenderedPost.idx = List.range' 1 2 :=
  c10_anchor_ids
    [⟨9, some "a", none, none, "l1", none⟩, ⟨4, none, none, none, "l2", none⟩]
    (List.cons_ne_nil _ _)

/-! ### Sanitiser scan lemmas -/

/-- Ground-truth checks of the sanitiser embedding on concrete fragments,
exercising the case-insensitive alternation, the optional closing slash,
attributes, unclosed and interleaved tags, the image word boundary and
the thin-space replacement (each agrees with the behaviour of the
corresponding CPython `re.sub`/`str.replace` calls). -/
theorem sanitise_fragment_checks :
    sanitise_fragment "<scr<script>ipt>x</script>" = "<script>x" ∧
    sanitise_fragment "x&thinsp;y" = "x y" ∧
    sanitise_fragment "<IFRAME data-x=1>x</iFrame>" = "x" ∧
    sanitise_fragment "<imgy>" = "<imgy>" ∧
    sanitise_fragment "<script foo" = "<script foo" ∧
    sanitise_fragment "<noscript><video></video></noscript>" = "" ∧
    sanitise_fragment "<svg><circle/></svg>" = "<circle/>" ∧
    sanitise_fragment "</img>" = "</img>" ∧
    sanitise_fragment "<img>" = "" ∧
    sanitise_fragment "<img/>" = "" ∧
    sanitise_fragment "<audio >inner</audio >" = "inner" ∧
    sanitise_fragment "<scriptXYZ foo>k" = "k" ∧
    sanitise_fragment "</SCRIPT continues >tail" = "tail" ∧
    sanitise_fragment "<i<img src=x>mg y>z" = "<img y>z" ∧
    sanitise_fragment "&thin<script>sp;" = "&thinsp;" ∧
    sanitise_fragment "<video>unclosed" = "unclosed" := by
  decide

/-- The scans fix the empty list at any fuel. -/
theorem subBadF_nil (f : Nat) : subBadF f [] = [] := by cases f <;> rfl

/-- The image scan fixes the empty list at any fuel. -/
theorem subImgF_nil (f : Nat) : subImgF f [] = [] := by cases f <;> rfl

/-- Without an ampersand there is no `&thinsp;` occurrence, so the
replacement scan is the identity (at any fuel). -/
theorem replaceThinspF_id {cs : List Char} (h : ∀ c ∈ cs, c ≠ '&') (f : Nat) :
    replaceThinspF f cs = cs := by
  induction cs generalizing f with
  | nil => cases f <;> rfl
  | cons c cs ih =>
    cases f with
    | zero => rfl
    | succ f =>
      have hc : c ≠ '&' := h c (List.mem_cons_self c cs)
      have hlit : litStarts thinspPat (c :: cs) = none := by
        rw [show thinspPat = '&' :: "thinsp;".data from rfl]
        simp [litStarts, hc]
      simp only [replaceThinspF, hlit]
      rw [ih (fun d hd => h d (List.mem_cons_of_mem _ hd)) f]

/-- Both regexes demand a literal `<` at the start of a match. -/
theorem matchBad_not_lt {c : Char} (h : c ≠ '<') (cs : List Char) :
    matchBad (c :: cs) = none := by
  simp [matchBad, h]

/-- The image regex also demands a literal `<`. -/
theorem matchImg_not_lt {c : Char} (h : c ≠ '<') (cs : List Char) :
    matchImg (c :: cs) = none := by
  simp [matchImg, h]

/-- Without `<` the tag-deletion scan is the identity (at any fuel). -/
theorem subBadF_id {cs : List Char} (h : ∀ c ∈ cs, c ≠ '<') (f : Nat) :
    subBadF f cs = cs := by
  induction cs generalizing f with
  | nil => cases f <;> rfl
  | cons c cs ih =>
    cases f with
    | zero => rfl
    | succ f =>
      simp only [subBadF, matchBad_not_lt (h c (List.mem_cons_self c cs))]
      rw [ih (fun d hd => h d (List.mem_cons_of_mem _ hd)) f]

/-- Without `<` the image-deletion scan is the identity (at any fuel). -/
theorem subImgF_id {cs : List Char} (h : ∀ c ∈ cs, c ≠ '<') (f : Nat) :
    subImgF f cs = cs := by
  induction cs generalizing f with
  | nil => cases f <;> rfl
  | cons c cs ih =>
    cases f with
    | zero => rfl
    | succ f =>
      simp only [subImgF, matchImg_not_lt (h c (List.mem_cons_self c cs))]
      rw [ih (fun d hd => h d (List.mem_cons_of_mem _ hd)) f]

/-- A step of the scan across a match. -/
theorem subBadF_succ_match {cs r : List Char} (hm : matchBad cs = some r) (f : Nat) :
    subBadF (f + 1) cs = subBadF f r := by
  cases cs with
  | nil => simp [matchBad] at hm
  | cons c cs => simp [subBadF, hm]

/-- The scan passes over a `<`-free block unchanged, spending one unit of
fuel per character. -/
theorem subBadF_append {cs : List Char} (h : ∀ c ∈ cs, c ≠ '<') (g : Nat) (ds : List Char) :
    subBadF (cs.length + g) (cs ++ ds) = cs ++ subBadF g ds := by
  induction cs with
  | nil => simp
  | cons c cs ih =>
    have hlen : (c :: cs).length + g = (cs.length + g) + 1 := by
      simp [List.length_cons]
      omega
    rw [hlen, List.cons_append]
    simp only [subBadF, matchBad_not_lt (h c (List.mem_cons_self c cs))]
    rw [ih (fun d hd => h d (List.mem_cons_of_mem _ hd)), List.cons_append]

/-- Deleting the tags of a denylisted element around a `<`-free body: the scan
consumes the opening tag, copies the body and consumes the closing tag. -/
theorem subBadF_wrap (tagL inner : List Char)
    (hopen : ∀ ds, matchBad ('<' :: (tagL ++ '>' :: ds)) = some ds)
    (hclose : ∀ ds, matchBad ('<' :: '/' :: (tagL ++ '>' :: ds)) = some ds)
    (hin : ∀ c ∈ inner, c ≠ '<') (f : Nat)
    (hf : inner.length + 2 ≤ f) :
    subBadF f ('<' :: (tagL ++ '>' :: (inner ++ ('<' :: '/' :: (tagL ++ ['>']))))) = inner := by
  obtain ⟨f1, rfl⟩ : ∃ f1, f = f1 + 1 := ⟨f - 1, by omega⟩
  rw [subBadF_succ_match (hopen (inner ++ ('<' :: '/' :: (tagL ++ ['>'])))) f1]
  obtain ⟨g, rfl⟩ : ∃ g, f1 = inner.length + (g + 1) := ⟨f1 - inner.length - 1, by omega⟩
  rw [subBadF_append hin (g + 1) _]
  rw [show ('<' : Char) :: '/' :: (tagL ++ ['>']) = '<' :: '/' :: (tagL ++ '>' :: []) from rfl]
  rw [subBadF_succ_match (hclose []) g, subBadF_nil, List.append_nil]

/-- The full sanitiser on a denylisted element wrapped around a clean
body: both tags vanish, the body survives verbatim. -/
theorem sanitiseChars_wrap (tagL inner : List Char)
    (hopen : ∀ ds, matchBad ('<' :: (tagL ++ '>' :: ds)) = some ds)
    (hclose : ∀ ds, matchBad ('<' :: '/' :: (tagL ++ '>' :: ds)) = some ds)
    (htag : ∀ c ∈ tagL, c ≠ '&')
    (hin : ∀ c ∈ inner, c ≠ '<' ∧ c ≠ '&') :
    sanitiseChars ('<' :: (tagL ++ '>' :: (inner ++ ('<' :: '/' :: (tagL ++ ['>']))))) = inner := by
  have hamp : ∀ c ∈ '<' :: (tagL ++ '>' :: (inner ++ ('<' :: '/' :: (tagL ++ ['>'])))),
      c ≠ '&' := by
    intro c hc
    rcases List.mem_cons.1 hc with rfl | hc
    · decide
    rcases List.mem_append.1 hc with hc | hc
    · exact htag c hc
    rcases List.mem_cons.1 hc with rfl | hc
    · decide
    rcases List.mem_append.1 hc with hc | hc
    · exact (hin c hc).2
    rcases List.mem_cons.1 hc with rfl | hc
    · decide
    rcases List.mem_cons.1 hc with rfl | hc
    · decide
    rcases List.mem_append.1 hc with hc | hc
    · exact htag c hc
    rcases List.mem_cons.1 hc with rfl | hc
    · decide
    exact absurd hc (List.not_mem_nil c)
  simp only [sanitiseChars]
  rw [replaceThinspF_id hamp]
  rw [subBadF_wrap tagL inner hopen hclose (fun c hc => (hin c hc).1) _
    (by simp [List.length_append]; omega)]
  exact subImgF_id (fun c hc => (hin c hc).1) inner.length

/-- C1 counterexample: `sanitise_fragment` deletes only the `<script>`
and `</script>` tags themselves; the content that stood between them
survives in the output, refuting "removes every instance of each
denylisted element *including the content between its opening and closing
tags*". -/
theorem c1_counterexample :
    sanitise_fragment "<script>alert(1)</script>" = "alert(1)" ∧
    sanitise_fragment "<script>alert(1)</script>" ≠ "" := by decide

/-- C1 amended: for every denylisted element name, `sanitise_fragment`
removes the opening and closing tags of the element wrapped around any
`<`-free, `&`-free body but keeps that body verbatim (it does not remove
the content between the tags), and it removes inline image tags; being a
total function it cannot crash on malformed input. -/
theorem c1_amended :
    (∀ tag ∈ badTagNames, ∀ inner : String,
        (∀ c ∈ inner.data, c ≠ '<' ∧ c ≠ '&') →
        sanitise_fragment ("<" ++ tag ++ ">" ++ inner ++ "</" ++ tag ++ ">") = inner) ∧
    sanitise_fragment "a<img src=1>b" = "ab" := by
  constructor
  · intro tag htag inner hin
    have hdata : ("<" ++ tag ++ ">" ++ inner ++ "</" ++ tag ++ ">").data =
        '<' :: (tag.data ++ '>' :: (inner.data ++ ('<' :: '/' :: (tag.data ++ ['>'])))) := by
      simp only [String.data_append,
        show ("<" : String).data = ['<'] from rfl,
        show (">" : String).data = ['>'] from rfl,
        show ("</" : String).data = ['<', '/'] from rfl,
        List.append_assoc, List.cons_append, List.nil_append]
    show String.mk (sanitiseChars ("<" ++ tag ++ ">" ++ inner ++ "</" ++ tag ++ ">").data) = inner
    rw [hdata]
    simp only [badTagNames, List.mem_cons, List.not_mem_nil, or_false] at htag
    rcases htag with rfl | rfl | rfl | rfl | rfl | rfl | rfl | rfl | rfl
    · rw [sanitiseChars_wrap "script".data inner.data
        (fun ds => rfl) (fun ds => rfl) (by decide) hin]
    · rw [sanitiseChars_wrap "style".data inner.data
        (fun ds => rfl) (fun ds => rfl) (by decide) hin]
    · rw [sanitiseChars_wrap "iframe".data inner.data
        (fun ds => rfl) (fun ds => rfl) (by decide) hin]
    · rw [sanitiseChars_wrap "svg".data inner.data
        (fun ds => rfl) (fun ds => rfl) (by decide) hin]
    · rw [sanitiseChars_wrap "object".data inner.data
        (fun ds => rfl) (fun ds => rfl) (by decide) hin]
    · rw [sanitiseChars_wrap "embed".data inner.data
        (fun ds => rfl) (fun ds => rfl) (by decide) hin]
    · rw [sanitiseChars_wrap "noscript".data inner.data
        (fun ds => rfl) (fun ds => rfl) (by decide) hin]
    · rw [sanitiseChars_wrap "video".data inner.data
        (fun ds => rfl) (fun ds => rfl) (by decide) hin]
    · rw [sanitiseChars_wrap "audio".data inner.data
        (fun ds => rfl) (fun ds => rfl) (by decide) hin]
  · decide

/-- C1 amended witness: concrete instance with the `style` element. -/
theorem c1_amended_witness :
    sanitise_fragment "<style>bodytext</style>" = "bodytext" ∧
    sanitise_fragment "a<img src=1>b" = "ab" :=
  ⟨c1_amended.1 "style" (by decide) "bodytext" (by decide), c1_amended.2⟩

/-- C2 counterexample: `sanitise_fragment` is not idempotent.  On
`"<scr<script>ipt>x</script>"` the first pass deletes the inner
`<script>` tag and the closing tag, and the remaining pieces reassemble
into `"<script>x"`; a second pass deletes that tag too, yielding `"x"`. -/
theorem c2_counterexample :
    sanitise_fragment (sanitise_fragment "<scr<script>ipt>x</script>") ≠
      sanitise_fragment "<scr<script>ipt>x</script>" := by decide

/-- C2 amended: `sanitise_fragment` fixes (and is therefore idempotent
on) every fragment containing neither `<` nor `&`; in general a second
application can remove further elements reassembled by the first. -/
theorem c2_amended (s : String) (h : ∀ c ∈ s.data, c ≠ '<' ∧ c ≠ '&') :
    sanitise_fragment (sanitise_fragment s) = sanitise_fragment s := by
  have hid : sanitise_fragment s = s := by
    show String.mk (sanitiseChars s.data) = s
    simp only [sanitiseChars]
    rw [replaceThinspF_id (fun c hc => (h c hc).2)]
    rw [subBadF_id (fun c hc => (h c hc).1)]
    rw [subImgF_id (fun c hc => (h c hc).1)]
  rw [hid]
  exact hid

/-- C2 amended witness: a markup-free fragment. -/
theorem c2_amended_witness :
    sanitise_fragment (sanitise_fragment "plain text, no markup") =
      sanitise_fragment "plain text, no markup" :=
  c2_amended "plain text, no markup" (by decide)

end News2Kindle
